import Mathlib

/-!
Shallow embedding of the snmpflapd event-enrichment pipeline.

Sources embedded:
* `internal/services/linkevent/snmp_retreiver.go` — trap classification,
  per-field extraction, cache-first metadata resolution, the SNMP access
  serializer (`RequestSemaphore` / `getSNMPString`), and the handler
  `LinkEventHandler`.
* `internal/repository/flapdb/provider.go` — the store: `SaveLinkEvent`,
  `UpdateLinkEvent`, the three cache get/put pairs and `CleanUp`, together
  with the SQL statement constants and which executor (the transaction `tx`
  or the raw handle `c.db`) each statement runs on.
* `cmd` main — the `OnNewTrap` callback guarding the handler with
  `IsLinkEvent`.

Go dynamic values carried in variable bindings are modelled by `GoValue`;
a failed unchecked type assertion (`v.(int)` without the `, ok` form) and
an out-of-range slice index are modelled as `GoPanic` outcomes that
propagate, mirroring a Go runtime panic.  Effectful code is modelled by
returning, next to its `Except GoPanic` result, the list of observable
calls (`Evt`) it performed, in order: cache reads/writes, outbound SNMP
queries, the serializer gate's lock/unlock, and the event insert/update.
-/

namespace Snmpflapd

/-! ### OID constants (snmp_retreiver.go lines 72-84) -/

def oidReference : String := ".1.3.6.1.6.3.1.1.4.1.0"

def timeTicksReference : String := ".1.3.6.1.2.1.1.3.0"

def linkUP : String := ".1.3.6.1.6.3.1.1.5.4"

def linkDOWN : String := ".1.3.6.1.6.3.1.1.5.3"

def ifIndexOIDPfx : String := ".1.3.6.1.2.1.2.2.1.1"

def ifNameOIDPfx : String := ".1.3.6.1.2.1.31.1.1.1.1."

def ifAliasOIDPfx : String := ".1.3.6.1.2.1.31.1.1.1.18."

def ifAdminStatusOIDPfx : String := ".1.3.6.1.2.1.2.2.1.7"

def ifOperStatusOIDPfx : String := ".1.3.6.1.2.1.2.2.1.8"

def ifNameVarBindPfxJunOS : String := ".1.3.6.1.2.1.31.1.1.1.1"

def sysNameOID : String := ".1.3.6.1.2.1.1.5.0"

/-- Go `strings.Contains(s, sub)`: `sub` occurs as a contiguous substring
of `s`. -/
def strContains (s sub : String) : Bool := decide (sub.toList <:+: s.toList)

/-! ### Variable bindings and Go dynamic values -/

/-- The dynamic (interface-typed) value carried by one variable binding.
`bytes` is a Go `[]byte`/`[]uint8` payload, recorded here as the string the
code converts it to; `str`, `int` and `uint` are the other dynamic types the
code asserts on; `other` is any further representation. -/
inductive GoValue
  | int (n : Int)
  | uint (n : Nat)
  | bytes (s : String)
  | str (s : String)
  | other
deriving DecidableEq

/-- One SNMP variable binding: OID name plus dynamic value
(gosnmp's `SnmpPDU`). -/
structure SnmpPDU where
  name : String
  value : GoValue
deriving DecidableEq

/-- A decoded trap packet: its ordered variable bindings. -/
structure SnmpPacket where
  Variables : List SnmpPDU
deriving DecidableEq

/-- A Go runtime panic outcome: a failed unchecked type assertion, or an
out-of-range slice index. An unrecovered panic aborts the goroutine (and,
in this daemon, the whole process). -/
inductive GoPanic
  | typeAssertion
  | indexOutOfRange
deriving DecidableEq

/-! ### Classification (snmp_retreiver.go lines 180-197) -/

/-- Loop body of `getEventOID`: return the value of the first binding whose
name equals `oidReference`, via the unchecked assertion `.(string)` —
a non-string value there panics. -/
def getEventOIDFrom : List SnmpPDU → Except GoPanic String
  | [] => .ok ""
  | v :: rest =>
      if v.name = oidReference then
        match v.value with
        | .str s => .ok s
        | _ => .error .typeAssertion
      else getEventOIDFrom rest

/-- `getEventOID`: oid bound to the OID Reference in the packet, `""` when
absent. -/
def getEventOID (p : SnmpPacket) : Except GoPanic String :=
  getEventOIDFrom p.Variables

/-- `IsLinkEvent`: the event oid equals `linkUP` or `linkDOWN`. -/
def IsLinkEvent (p : SnmpPacket) : Except GoPanic Bool := do
  let eventOid ← getEventOID p
  pure (eventOid = linkUP || eventOid = linkDOWN)

/-! ### The LinkEvent record (snmp_retreiver.go lines 90-104) -/

/-- The in-memory event. Fields default to their Go zero values, as in the
`LinkEvent{...}` literal of `LinkEventHandler` (sid, wall-clock time, repo
and community are threaded separately where needed). -/
structure LinkEvent where
  ifIndex : Int := 0
  ifAdminStatus : Int := 0
  ifOperStatus : Int := 0
  ifName : Option String := none
  ifAlias : Option String := none
  hostName : Option String := none
  ipAddress : String := ""
  timeTicks : Nat := 0
deriving DecidableEq

/-! ### Field extraction (snmp_retreiver.go lines 107-157) -/

/-- One iteration of the `FromSnmpPacket` loop over a variable binding.
The first three branches use unchecked assertions `variable.Value.(int)`
(panic on a wrong dynamic type); the JunOS ifName and timeTicks branches
use the checked `, ok` form and merely log and skip on a mismatch. -/
def applyVarBind (le : LinkEvent) (v : SnmpPDU) : Except GoPanic LinkEvent :=
  if strContains v.name ifIndexOIDPfx then
    match v.value with
    | .int n => .ok { le with ifIndex := n }
    | _ => .error .typeAssertion
  else if strContains v.name ifAdminStatusOIDPfx then
    match v.value with
    | .int n => .ok { le with ifAdminStatus := n }
    | _ => .error .typeAssertion
  else if strContains v.name ifOperStatusOIDPfx then
    match v.value with
    | .int n => .ok { le with ifOperStatus := n }
    | _ => .error .typeAssertion
  else if strContains v.name ifNameVarBindPfxJunOS then
    match v.value with
    | .bytes s => .ok { le with ifName := some s }
    | _ => .ok le
  else if strContains v.name timeTicksReference then
    match v.value with
    | .uint n => .ok { le with timeTicks := n }
    | _ => .ok le
  else .ok le

/-- The `FromSnmpPacket` loop over all bindings; a panic aborts the loop. -/
def foldVarBinds : LinkEvent → List SnmpPDU → Except GoPanic LinkEvent
  | le, [] => .ok le
  | le, v :: rest => do foldVarBinds (← applyVarBind le v) rest

/-- `FromSnmpPacket`: reject non-link events, else record the sender
address and fill the event from the packet's variable bindings. -/
def FromSnmpPacket (le : LinkEvent) (p : SnmpPacket) (addr : String) :
    Except GoPanic LinkEvent := do
  if (← IsLinkEvent p) then
    foldVarBinds { le with ipAddress := addr } p.Variables
  else
    .ok le

/-! ### Observable effects of the resolution pipeline -/

/-- The three cache kinds (tables `cache_hostname`, `cache_ifname`,
`cache_ifalias`). -/
inductive CacheKind
  | hostname
  | ifname
  | ifalias
deriving DecidableEq

/-- An observable call performed by the pipeline, in program order:
the serializer gate's lock/unlock (`snmpSema.mx`), one outbound device
query (connect + GET inside `doSNMPRequest`), a cache read (`GetCached*`),
a cache write (`PutCached*`, carrying the `Model` field the code passes as
the value column), the event insert (`SaveLinkEvent`) and the event update
(`UpdateLinkEvent`, carrying hostName/ifName/ifAlias and the sid). -/
inductive Evt
  | lock
  | unlock
  | snmpGet (oid ip : String)
  | cacheGet (k : CacheKind) (ip : String) (ifIndex : Int)
  | cachePut (k : CacheKind) (ip : String) (ifIndex : Int) (value : Option String)
  | insert (sid : String)
  | update (sid : String) (hostName ifName ifAlias : Option String)
deriving DecidableEq

/-- What the device-query collaborator does for one GET:
`connError` — `c.Connect()` (or the GET) fails; `value s` — a response whose
first variable binding carries the byte-string `s`; `wrongType` — a response
whose first variable binding carries a non-byte-string value; `empty` — a
response with an empty variable binding list. -/
inductive SnmpResult
  | connError
  | value (s : String)
  | wrongType
  | empty
deriving DecidableEq

/-- The error returns of `getSNMPString`: the propagated connection error,
or `errors.New("received nil from the device")`. -/
inductive SnmpErr
  | connFailure
  | receivedNil
deriving DecidableEq

/-- The environment of one handler run: the cache store's answer to each
lookup (`none` models both a miss and a lookup error — the callers treat
the two identically), the device's behaviour for each (oid, ip) query, and
whether `SaveLinkEvent` succeeds. -/
structure Oracle where
  cache : CacheKind → String → Int → Option String
  snmp : String → String → SnmpResult
  insertOk : Bool

/-! ### The SNMP access serializer (snmp_retreiver.go lines 12-48) -/

/-- `getSNMPString`: take the process-wide `snmpSema.mx` lock (released by
`defer`, hence also on a panic), perform the device query, and parse the
first returned variable binding. A connection error propagates as an error
return; a first value that is not `[]byte` yields the "received nil" error;
an empty variable list panics (`pdu.Variables[0]` — index out of range)
instead of returning. The `snmpGet` trace event marks the one
`doSNMPRequest` invocation (connect + GET against the device), so the
trace is `[lock, snmpGet, unlock]` in every case — the `defer`red unlock
runs on the error returns and while panicking alike. -/
def getSNMPString (o : Oracle) (oid ip : String) :
    Except GoPanic (Except SnmpErr String) × List Evt :=
  match o.snmp oid ip with
  | .connError => (.ok (.error .connFailure), [.lock, .snmpGet oid ip, .unlock])
  | .value s => (.ok (.ok s), [.lock, .snmpGet oid ip, .unlock])
  | .wrongType => (.ok (.error .receivedNil), [.lock, .snmpGet oid ip, .unlock])
  | .empty => (.error .indexOutOfRange, [.lock, .snmpGet oid ip, .unlock])

/-! ### Cache-first resolution (snmp_retreiver.go lines 216-295, 339-436) -/

/-- `FillHostName`: adopt a live cached hostname when the store returns one
(`getCachedHostname`), else issue one SNMP GET for `sysNameOID`; on an
error return, log and leave the field unresolved; on success store the
value on the event and write it back through `putCachedHostname`. -/
def FillHostName (o : Oracle) (le : LinkEvent) :
    Except GoPanic LinkEvent × List Evt :=
  let g : Evt := .cacheGet .hostname le.ipAddress 0
  match o.cache .hostname le.ipAddress 0 with
  | some h => (.ok { le with hostName := some h }, [g])
  | none =>
      match getSNMPString o sysNameOID le.ipAddress with
      | (.error gp, t) => (.error gp, g :: t)
      | (.ok (.error _), t) => (.ok le, g :: t)
      | (.ok (.ok s), t) =>
          (.ok { le with hostName := some s },
           g :: t ++ [.cachePut .hostname le.ipAddress 0 (some s)])

/-- `FillIfName`: as `FillHostName` for the key (ip, ifIndex) and the OID
`ifNameOIDPfx + strconv.Itoa(ifIndex)`. Note: `putCachedIfName` builds its
`Model` from the ip address and ifIndex only — `Model.IfName` stays nil, so
the cache row is written with a nil value (snmp_retreiver.go lines
356-369). -/
def FillIfName (o : Oracle) (le : LinkEvent) :
    Except GoPanic LinkEvent × List Evt :=
  let g : Evt := .cacheGet .ifname le.ipAddress le.ifIndex
  match o.cache .ifname le.ipAddress le.ifIndex with
  | some n => (.ok { le with ifName := some n }, [g])
  | none =>
      match getSNMPString o (ifNameOIDPfx ++ toString le.ifIndex) le.ipAddress with
      | (.error gp, t) => (.error gp, g :: t)
      | (.ok (.error _), t) => (.ok le, g :: t)
      | (.ok (.ok s), t) =>
          (.ok { le with ifName := some s },
           g :: t ++ [.cachePut .ifname le.ipAddress le.ifIndex none])

/-- `FillIfAlias`: as `FillHostName` for the key (ip, ifIndex) and the OID
`ifAliasOIDPfx + strconv.Itoa(ifIndex)`; `putCachedIfAlias` does pass the
resolved alias as the value. -/
def FillIfAlias (o : Oracle) (le : LinkEvent) :
    Except GoPanic LinkEvent × List Evt :=
  let g : Evt := .cacheGet .ifalias le.ipAddress le.ifIndex
  match o.cache .ifalias le.ipAddress le.ifIndex with
  | some a => (.ok { le with ifAlias := some a }, [g])
  | none =>
      match getSNMPString o (ifAliasOIDPfx ++ toString le.ifIndex) le.ipAddress with
      | (.error gp, t) => (.error gp, g :: t)
      | (.ok (.error _), t) => (.ok le, g :: t)
      | (.ok (.ok s), t) =>
          (.ok { le with ifAlias := some s },
           g :: t ++ [.cachePut .ifalias le.ipAddress le.ifIndex (some s)])

/-- Sequencing of two effectful steps: a panic in the first aborts the
second; traces concatenate. -/
def andThen (r : Except GoPanic LinkEvent × List Evt)
    (f : LinkEvent → Except GoPanic LinkEvent × List Evt) :
    Except GoPanic LinkEvent × List Evt :=
  match r with
  | (.error gp, t) => (.error gp, t)
  | (.ok le, t) => ((f le).1, t ++ (f le).2)

/-- The `le.hostName == nil` guard of `FetchMissingData`. -/
def FillHostNameIfMissing (o : Oracle) (le : LinkEvent) :
    Except GoPanic LinkEvent × List Evt :=
  match le.hostName with
  | some _ => (.ok le, [])
  | none => FillHostName o le

/-- The `le.ifName == nil` guard of `FetchMissingData`. -/
def FillIfNameIfMissing (o : Oracle) (le : LinkEvent) :
    Except GoPanic LinkEvent × List Evt :=
  match le.ifName with
  | some _ => (.ok le, [])
  | none => FillIfName o le

/-- The `le.ifAlias == nil` guard of `FetchMissingData`. -/
def FillIfAliasIfMissing (o : Oracle) (le : LinkEvent) :
    Except GoPanic LinkEvent × List Evt :=
  match le.ifAlias with
  | some _ => (.ok le, [])
  | none => FillIfAlias o le

/-- `FetchMissingData`: resolve hostname, then ifName, then ifAlias, each
only when still nil. -/
def FetchMissingData (o : Oracle) (le : LinkEvent) :
    Except GoPanic LinkEvent × List Evt :=
  andThen (andThen (FillHostNameIfMissing o le) (FillIfNameIfMissing o))
    (FillIfAliasIfMissing o)

/-! ### The handler (snmp_retreiver.go lines 159-178) and the `OnNewTrap`
callback of `main` -/

/-- `LinkEventHandler`: build the event from the packet, insert it
(`saveLinkEvent`); when the insert fails, log and return — no resolution
and no update. Otherwise resolve missing fields and issue the update
(`updateLinkEvent`) carrying the resolved hostName/ifName/ifAlias, keyed
by the sid. A panic during extraction aborts before the insert; one during
resolution aborts before the update. -/
def LinkEventHandler (o : Oracle) (p : SnmpPacket) (addr sid : String) :
    Except GoPanic Unit × List Evt :=
  match FromSnmpPacket {} p addr with
  | .error gp => (.error gp, [])
  | .ok ev =>
      if o.insertOk then
        match FetchMissingData o ev with
        | (.error gp, t) => (.error gp, .insert sid :: t)
        | (.ok ev2, t) =>
            (.ok (), .insert sid ::
              (t ++ [.update sid ev2.hostName ev2.ifName ev2.ifAlias]))
      else (.ok (), [.insert sid])

/-- The `tl.OnNewTrap` callback of `main`: spawn `LinkEventHandler` only
when `IsLinkEvent` holds; otherwise nothing runs. -/
def OnNewTrap (o : Oracle) (p : SnmpPacket) (addr sid : String) :
    Except GoPanic Unit × List Evt :=
  match IsLinkEvent p with
  | .error gp => (.error gp, [])
  | .ok true => LinkEventHandler o p addr sid
  | .ok false => (.ok (), [])

/-! ### Trace predicates -/

/-- Is the event an insert? -/
def isInsert : Evt → Bool
  | .insert _ => true
  | _ => false

/-- Is the event an update? -/
def isUpdate : Evt → Bool
  | .update _ _ _ _ => true
  | _ => false

/-- Is the event an outbound device query? -/
def isSnmpGet : Evt → Bool
  | .snmpGet _ _ => true
  | _ => false

/-- Is the event a cache write of the given kind? -/
def isCachePut (k : CacheKind) : Evt → Bool
  | .cachePut k2 _ _ _ => k2 = k
  | _ => false

/-- Is the event a cache read of the given kind? -/
def isCacheGet (k : CacheKind) : Evt → Bool
  | .cacheGet k2 _ _ => k2 = k
  | _ => false

/-- Is the event a device query for exactly this OID and address? -/
def isSnmpGetFor (oid ip : String) : Evt → Bool
  | .snmpGet oid2 ip2 => oid2 = oid && ip2 = ip
  | _ => false

/-! ### The store: SQL statements and their executors
(provider.go lines 50-83, 167-200, 218-251, 267-299, 305-316) -/

/-- Which handle a SQL statement is executed on inside a `PutCached*` /
`CleanUp` body: the transaction `tx` opened by `c.db.BeginTx` (committed at
the end, rolled back by the deferred `tx.Rollback`), or the raw pooled
handle `c.db` (autocommit, outside the transaction). -/
inductive SqlExec
  | onTx
  | onDb
deriving DecidableEq

/-- One executed SQL statement: its executor and its SQL text. -/
structure SqlStmt where
  exec : SqlExec
  sql : String
deriving DecidableEq

/-- SQL constant `cleanUpHostnameSQL` (provider.go line 306). -/
def cleanUpHostnameSQL : String :=
  "DELETE FROM cache_hostname WHERE time < now() - INTERVAL ? MINUTE;"

/-- SQL constant `cleanUpIfNameSQL` (provider.go line 307). -/
def cleanUpIfNameSQL : String :=
  "DELETE FROM cache_ifname WHERE time < now() - INTERVAL ? MINUTE;"

/-- SQL constant `cleanUpIfAliasSQL` (provider.go line 308). -/
def cleanUpIfAliasSQL : String :=
  "DELETE FROM cache_ifalias WHERE time < now() - INTERVAL ? MINUTE;"

/-- SQL constant `deleteIfnameIfindex` (provider.go line 309). -/
def deleteIfnameIfindex : String :=
  "DELETE FROM cache_ifname WHERE ipaddress = ? and ifIndex = ?;"

/-- SQL constant `setCacheIfName` (provider.go line 310). -/
def setCacheIfName : String :=
  "INSERT INTO cache_ifname (ipaddress, ifIndex, ifName) VALUES (?, ?, ?);"

/-- SQL constant `deleteIfAliasIfindex` (provider.go line 311). -/
def deleteIfAliasIfindex : String :=
  "DELETE FROM cache_ifalias WHERE ipaddress = ? and ifindex = ?;"

/-- SQL constant `setCacheIfAlias` (provider.go line 312). -/
def setCacheIfAlias : String :=
  "INSERT INTO cache_ifalias (ipaddress, ifIndex, ifAlias) VALUES (?, ?, ?);"

/-- SQL constant `deleteHostNameWhereIPaddr` (provider.go line 314). -/
def deleteHostNameWhereIPaddr : String :=
  "DELETE FROM cache_hostname WHERE ipaddress = ?;"

/-- SQL constant `setCacheHostName` (provider.go line 315). -/
def setCacheHostName : String :=
  "INSERT INTO cache_hostname (ipaddress, hostname) VALUES (?, ?);"

/-- The statements executed by `Connector.PutCachedIfName`, in order, with
the executor each one is invoked on: the delete runs on `tx`
(`tx.ExecContext`, provider.go line 183), but the insert runs on the raw
handle `c.db` (`c.db.ExecContext`, provider.go line 188). -/
def putCachedIfNameStmts : List SqlStmt :=
  [⟨.onTx, deleteIfnameIfindex⟩, ⟨.onDb, setCacheIfName⟩]

/-- The statements executed by `Connector.PutCachedIfAlias`, in order:
both on `tx` (provider.go lines 234, 239). -/
def putCachedIfAliasStmts : List SqlStmt :=
  [⟨.onTx, deleteIfAliasIfindex⟩, ⟨.onTx, setCacheIfAlias⟩]

/-- The statements executed by `Connector.PutCachedHostname`, in order:
both on `tx` (provider.go lines 283, 288). -/
def putCachedHostnameStmts : List SqlStmt :=
  [⟨.onTx, deleteHostNameWhereIPaddr⟩, ⟨.onTx, setCacheHostName⟩]

/-- The statements executed by `Connector.CleanUp`, in order: the three
kind-specific deletes, all on `tx` (provider.go lines 68-75), each bound to
its own kind's configured TTL in minutes. -/
def cleanUpStmts : List SqlStmt :=
  [⟨.onTx, cleanUpHostnameSQL⟩, ⟨.onTx, cleanUpIfNameSQL⟩,
   ⟨.onTx, cleanUpIfAliasSQL⟩]

/-! ### Cleanup semantics (provider.go lines 51-83) -/

/-- A row of `cache_hostname`: key `ipaddress`, value `hostname`, write
timestamp `time` (in minutes, matching the `INTERVAL ? MINUTE`
granularity). -/
structure HostnameRow where
  ipaddress : String
  hostname : Option String
  time : Int
deriving DecidableEq

/-- A row of `cache_ifname` / `cache_ifalias`: key (`ipaddress`,
`ifIndex`), value column, write timestamp in minutes. -/
structure IfRow where
  ipaddress : String
  ifIndex : Int
  value : Option String
  time : Int
deriving DecidableEq

/-- The three cache tables. -/
structure CacheDB where
  cache_hostname : List HostnameRow
  cache_ifname : List IfRow
  cache_ifalias : List IfRow
deriving DecidableEq

/-- The per-kind TTL configuration carried by the `Connector`
(provider.go lines 14-20), in minutes. -/
structure ConnectorCfg where
  cacheIfNameMinutes : Int
  cacheIfAliasMinutes : Int
  cacheHostnameMinutes : Int
deriving DecidableEq

/-- The state change of a committed `Connector.CleanUp` at wall-clock time
`now` (minutes): each table keeps exactly the rows not matched by
`time < now() - INTERVAL ttl MINUTE`, where ttl is that kind's configured
TTL. -/
def CleanUp (c : ConnectorCfg) (now : Int) (db : CacheDB) : CacheDB :=
  { cache_hostname :=
      db.cache_hostname.filter
        (fun r => !decide (r.time < now - c.cacheHostnameMinutes)),
    cache_ifname :=
      db.cache_ifname.filter
        (fun r => !decide (r.time < now - c.cacheIfNameMinutes)),
    cache_ifalias :=
      db.cache_ifalias.filter
        (fun r => !decide (r.time < now - c.cacheIfAliasMinutes)) }

/-! ### The serializer as a transition system (snmp_retreiver.go
lines 12-15, 32-48)

Each concurrently running trap-handling task that reaches `getSNMPString`
executes `snmpSema.mx.Lock()`, then the device query `doSNMPRequest`, then
the deferred `snmpSema.mx.Unlock()`. `snmpSema` is the single package-level
`RequestSemaphore`, so one boolean lock is shared by all tasks. -/

/-- Where one task stands in `getSNMPString`: before the `Lock()` call,
holding the lock with its device query in flight, or past the deferred
`Unlock()`. -/
inductive Phase
  | ready
  | querying
  | finished
deriving DecidableEq

/-- The system state for `n` concurrent tasks: each task's phase, and
whether `snmpSema.mx` is held. -/
structure MxState (n : Nat) where
  pc : Fin n → Phase
  locked : Bool

/-- The interleaving steps: `acquire` — a task's `snmpSema.mx.Lock()`
returns, which the mutex allows only when no one holds it; `release` — a
task finishes its query and its deferred `Unlock()` runs. -/
inductive MxStep (n : Nat) : MxState n → MxState n → Prop
  | acquire (s : MxState n) (i : Fin n) :
      s.pc i = .ready → s.locked = false →
      MxStep n s ⟨Function.update s.pc i .querying, true⟩
  | release (s : MxState n) (i : Fin n) :
      s.pc i = .querying →
      MxStep n s ⟨Function.update s.pc i .finished, false⟩

/-- The initial state: every task before its `Lock()`, the mutex free. -/
def mxInit (n : Nat) : MxState n := ⟨fun _ => .ready, false⟩

/-- States reachable from the initial state by interleaved steps. -/
inductive MxReachable (n : Nat) : MxState n → Prop
  | init : MxReachable n (mxInit n)
  | step {s s' : MxState n} :
      MxReachable n s → MxStep n s s' → MxReachable n s'

end Snmpflapd

deriving instance DecidableEq for Except

namespace Snmpflapd

/-! ### Concrete test data used by witnesses and counterexamples -/

/-- An environment in which every cache lookup misses, every device query
fails to connect, and the event insert succeeds. -/
def oConnFail : Oracle := ⟨fun _ _ _ => none, fun _ _ => .connError, true⟩

/-- An environment in which every cache lookup misses, every device query
returns the byte-string "eth0", and the event insert succeeds. -/
def oAllEth0 : Oracle := ⟨fun _ _ _ => none, fun _ _ => .value "eth0", true⟩

/-- An environment in which every device query returns a response with an
empty variable binding list. -/
def oEmpty : Oracle := ⟨fun _ _ _ => none, fun _ _ => .empty, true⟩

/-- An environment in which the ifAlias device query returns an empty
variable binding list while every other query succeeds; caches miss and
the insert succeeds. -/
def oEmptyAlias : Oracle :=
  ⟨fun _ _ _ => none,
   fun oid _ => if strContains oid ".18." then .empty else .value "v",
   true⟩

/-- A well-formed linkDown trap: event type, ifIndex 3, adminStatus 1,
operStatus 2, timeTicks 55. -/
def pGood : SnmpPacket :=
  ⟨[⟨oidReference, .str linkDOWN⟩,
    ⟨".1.3.6.1.2.1.2.2.1.1.3", .int 3⟩,
    ⟨".1.3.6.1.2.1.2.2.1.7.3", .int 1⟩,
    ⟨".1.3.6.1.2.1.2.2.1.8.3", .int 2⟩,
    ⟨timeTicksReference, .uint 55⟩]⟩

/-! ### Enumeration of the outcomes of each resolution step -/

/-- Exhaustive outcomes of `FillHostName`: cache hit (adopt, no query);
miss then successful query (field set, one cache write-back); miss then an
error return from `getSNMPString` (field left unresolved, no write); miss
then an empty response (panic propagates, no write). -/
theorem fillHostName_cases (o : Oracle) (le : LinkEvent) :
    (∃ h, o.cache .hostname le.ipAddress 0 = some h ∧
      FillHostName o le = (.ok { le with hostName := some h },
        [.cacheGet .hostname le.ipAddress 0]))
    ∨ (o.cache .hostname le.ipAddress 0 = none ∧
       ((∃ s, o.snmp sysNameOID le.ipAddress = .value s ∧
          FillHostName o le = (.ok { le with hostName := some s },
            [.cacheGet .hostname le.ipAddress 0, .lock,
             .snmpGet sysNameOID le.ipAddress, .unlock,
             .cachePut .hostname le.ipAddress 0 (some s)]))
        ∨ ((o.snmp sysNameOID le.ipAddress = .connError ∨
            o.snmp sysNameOID le.ipAddress = .wrongType) ∧
          FillHostName o le = (.ok le,
            [.cacheGet .hostname le.ipAddress 0, .lock,
             .snmpGet sysNameOID le.ipAddress, .unlock]))
        ∨ (o.snmp sysNameOID le.ipAddress = .empty ∧
          FillHostName o le = (.error .indexOutOfRange,
            [.cacheGet .hostname le.ipAddress 0, .lock,
             .snmpGet sysNameOID le.ipAddress, .unlock])))) := by
  cases hc : o.cache .hostname le.ipAddress 0 with
  | some h => exact .inl ⟨h, rfl, by simp [FillHostName, hc]⟩
  | none =>
      refine .inr ⟨rfl, ?_⟩
      cases hs : o.snmp sysNameOID le.ipAddress with
      | value s =>
          exact .inl ⟨s, rfl, by simp [FillHostName, hc, getSNMPString, hs]⟩
      | connError =>
          exact .inr (.inl ⟨.inl rfl,
            by simp [FillHostName, hc, getSNMPString, hs]⟩)
      | wrongType =>
          exact .inr (.inl ⟨.inr rfl,
            by simp [FillHostName, hc, getSNMPString, hs]⟩)
      | empty =>
          exact .inr (.inr ⟨rfl,
            by simp [FillHostName, hc, getSNMPString, hs]⟩)

/-- Exhaustive outcomes of `FillIfName`; note the nil value in the cache
write-back (the code omits `IfName` from the `Model` it hands to
`PutCachedIfName`). -/
theorem fillIfName_cases (o : Oracle) (le : LinkEvent) :
    (∃ n, o.cache .ifname le.ipAddress le.ifIndex = some n ∧
      FillIfName o le = (.ok { le with ifName := some n },
        [.cacheGet .ifname le.ipAddress le.ifIndex]))
    ∨ (o.cache .ifname le.ipAddress le.ifIndex = none ∧
       ((∃ s, o.snmp (ifNameOIDPfx ++ toString le.ifIndex) le.ipAddress = .value s ∧
          FillIfName o le = (.ok { le with ifName := some s },
            [.cacheGet .ifname le.ipAddress le.ifIndex, .lock,
             .snmpGet (ifNameOIDPfx ++ toString le.ifIndex) le.ipAddress, .unlock,
             .cachePut .ifname le.ipAddress le.ifIndex none]))
        ∨ ((o.snmp (ifNameOIDPfx ++ toString le.ifIndex) le.ipAddress = .connError ∨
            o.snmp (ifNameOIDPfx ++ toString le.ifIndex) le.ipAddress = .wrongType) ∧
          FillIfName o le = (.ok le,
            [.cacheGet .ifname le.ipAddress le.ifIndex, .lock,
             .snmpGet (ifNameOIDPfx ++ toString le.ifIndex) le.ipAddress, .unlock]))
        ∨ (o.snmp (ifNameOIDPfx ++ toString le.ifIndex) le.ipAddress = .empty ∧
          FillIfName o le = (.error .indexOutOfRange,
            [.cacheGet .ifname le.ipAddress le.ifIndex, .lock,
             .snmpGet (ifNameOIDPfx ++ toString le.ifIndex) le.ipAddress, .unlock])))) := by
  cases hc : o.cache .ifname le.ipAddress le.ifIndex with
  | some n => exact .inl ⟨n, rfl, by simp [FillIfName, hc]⟩
  | none =>
      refine .inr ⟨rfl, ?_⟩
      cases hs : o.snmp (ifNameOIDPfx ++ toString le.ifIndex) le.ipAddress with
      | value s =>
          exact .inl ⟨s, rfl, by simp [FillIfName, hc, getSNMPString, hs]⟩
      | connError =>
          exact .inr (.inl ⟨.inl rfl,
            by simp [FillIfName, hc, getSNMPString, hs]⟩)
      | wrongType =>
          exact .inr (.inl ⟨.inr rfl,
            by simp [FillIfName, hc, getSNMPString, hs]⟩)
      | empty =>
          exact .inr (.inr ⟨rfl,
            by simp [FillIfName, hc, getSNMPString, hs]⟩)

/-- Exhaustive outcomes of `FillIfAlias`. -/
theorem fillIfAlias_cases (o : Oracle) (le : LinkEvent) :
    (∃ a, o.cache .ifalias le.ipAddress le.ifIndex = some a ∧
      FillIfAlias o le = (.ok { le with ifAlias := some a },
        [.cacheGet .ifalias le.ipAddress le.ifIndex]))
    ∨ (o.cache .ifalias le.ipAddress le.ifIndex = none ∧
       ((∃ s, o.snmp (ifAliasOIDPfx ++ toString le.ifIndex) le.ipAddress = .value s ∧
          FillIfAlias o le = (.ok { le with ifAlias := some s },
            [.cacheGet .ifalias le.ipAddress le.ifIndex, .lock,
             .snmpGet (ifAliasOIDPfx ++ toString le.ifIndex) le.ipAddress, .unlock,
             .cachePut .ifalias le.ipAddress le.ifIndex (some s)]))
        ∨ ((o.snmp (ifAliasOIDPfx ++ toString le.ifIndex) le.ipAddress = .connError ∨
            o.snmp (ifAliasOIDPfx ++ toString le.ifIndex) le.ipAddress = .wrongType) ∧
          FillIfAlias o le = (.ok le,
            [.cacheGet .ifalias le.ipAddress le.ifIndex, .lock,
             .snmpGet (ifAliasOIDPfx ++ toString le.ifIndex) le.ipAddress, .unlock]))
        ∨ (o.snmp (ifAliasOIDPfx ++ toString le.ifIndex) le.ipAddress = .empty ∧
          FillIfAlias o le = (.error .indexOutOfRange,
            [.cacheGet .ifalias le.ipAddress le.ifIndex, .lock,
             .snmpGet (ifAliasOIDPfx ++ toString le.ifIndex) le.ipAddress, .unlock])))) := by
  cases hc : o.cache .ifalias le.ipAddress le.ifIndex with
  | some a => exact .inl ⟨a, rfl, by simp [FillIfAlias, hc]⟩
  | none =>
      refine .inr ⟨rfl, ?_⟩
      cases hs : o.snmp (ifAliasOIDPfx ++ toString le.ifIndex) le.ipAddress with
      | value s =>
          exact .inl ⟨s, rfl, by simp [FillIfAlias, hc, getSNMPString, hs]⟩
      | connError =>
          exact .inr (.inl ⟨.inl rfl,
            by simp [FillIfAlias, hc, getSNMPString, hs]⟩)
      | wrongType =>
          exact .inr (.inl ⟨.inr rfl,
            by simp [FillIfAlias, hc, getSNMPString, hs]⟩)
      | empty =>
          exact .inr (.inr ⟨rfl,
            by simp [FillIfAlias, hc, getSNMPString, hs]⟩)

/-- The hostname step of `FetchMissingData` either returns normally —
changing nothing but possibly the hostname, its trace free of ifName
events, ifAlias writes and persistence calls — or panics with such a
trace. -/
theorem fillHostNameIfMissing_cases (o : Oracle) (le : LinkEvent) :
    (∃ le1 t1, FillHostNameIfMissing o le = (.ok le1, t1)
      ∧ le1.ifIndex = le.ifIndex ∧ le1.ipAddress = le.ipAddress
      ∧ le1.ifName = le.ifName ∧ le1.ifAlias = le.ifAlias
      ∧ ∀ e ∈ t1, (isCacheGet .ifname e || isCachePut .ifname e
          || isCachePut .ifalias e || isInsert e || isUpdate e) = false)
    ∨ (∃ t1, FillHostNameIfMissing o le = (.error .indexOutOfRange, t1)
      ∧ ∀ e ∈ t1, (isCacheGet .ifname e || isCachePut .ifname e
          || isCachePut .ifalias e || isInsert e || isUpdate e) = false) := by
  unfold FillHostNameIfMissing
  cases hh : le.hostName with
  | some h => exact .inl ⟨le, [], rfl, rfl, rfl, rfl, rfl, by simp⟩
  | none =>
      rcases fillHostName_cases o le with
        ⟨h, _, heq⟩ | ⟨_, ⟨s, _, heq⟩ | ⟨_, heq⟩ | ⟨_, heq⟩⟩
      · exact .inl ⟨_, _, heq, rfl, rfl, rfl, rfl, by
          intro e he; simp at he; subst he; rfl⟩
      · exact .inl ⟨_, _, heq, rfl, rfl, rfl, rfl, by
          intro e he; simp at he
          rcases he with rfl | rfl | rfl | rfl | rfl <;> rfl⟩
      · exact .inl ⟨_, _, heq, rfl, rfl, rfl, rfl, by
          intro e he; simp at he
          rcases he with rfl | rfl | rfl | rfl <;> rfl⟩
      · exact .inr ⟨_, heq, by
          intro e he; simp at he
          rcases he with rfl | rfl | rfl | rfl <;> rfl⟩

/-- The ifName step of `FetchMissingData` either returns normally —
changing nothing but possibly the ifName, its trace free of hostname
writes, ifAlias writes and persistence calls — or panics with such a
trace. -/
theorem fillIfNameIfMissing_cases (o : Oracle) (le : LinkEvent) :
    (∃ le1 t1, FillIfNameIfMissing o le = (.ok le1, t1)
      ∧ le1.ifIndex = le.ifIndex ∧ le1.ipAddress = le.ipAddress
      ∧ le1.hostName = le.hostName ∧ le1.ifAlias = le.ifAlias
      ∧ ∀ e ∈ t1, (isCachePut .hostname e || isCachePut .ifalias e
          || isInsert e || isUpdate e) = false)
    ∨ (∃ t1, FillIfNameIfMissing o le = (.error .indexOutOfRange, t1)
      ∧ ∀ e ∈ t1, (isCachePut .hostname e || isCachePut .ifalias e
          || isInsert e || isUpdate e) = false) := by
  unfold FillIfNameIfMissing
  cases hh : le.ifName with
  | some n => exact .inl ⟨le, [], rfl, rfl, rfl, rfl, rfl, by simp⟩
  | none =>
      rcases fillIfName_cases o le with
        ⟨n, _, heq⟩ | ⟨_, ⟨s, _, heq⟩ | ⟨_, heq⟩ | ⟨_, heq⟩⟩
      · exact .inl ⟨_, _, heq, rfl, rfl, rfl, rfl, by
          intro e he; simp at he; subst he; rfl⟩
      · exact .inl ⟨_, _, heq, rfl, rfl, rfl, rfl, by
          intro e he; simp at he
          rcases he with rfl | rfl | rfl | rfl | rfl <;> rfl⟩
      · exact .inl ⟨_, _, heq, rfl, rfl, rfl, rfl, by
          intro e he; simp at he
          rcases he with rfl | rfl | rfl | rfl <;> rfl⟩
      · exact .inr ⟨_, heq, by
          intro e he; simp at he
          rcases he with rfl | rfl | rfl | rfl <;> rfl⟩

/-- The ifAlias step of `FetchMissingData` either returns normally —
changing nothing but possibly the ifAlias, its trace free of ifName
events, hostname writes and persistence calls — or panics with such a
trace. -/
theorem fillIfAliasIfMissing_cases (o : Oracle) (le : LinkEvent) :
    (∃ le1 t1, FillIfAliasIfMissing o le = (.ok le1, t1)
      ∧ le1.ifIndex = le.ifIndex ∧ le1.ipAddress = le.ipAddress
      ∧ le1.hostName = le.hostName ∧ le1.ifName = le.ifName
      ∧ ∀ e ∈ t1, (isCacheGet .ifname e || isCachePut .ifname e
          || isCachePut .hostname e || isInsert e || isUpdate e) = false)
    ∨ (∃ t1, FillIfAliasIfMissing o le = (.error .indexOutOfRange, t1)
      ∧ ∀ e ∈ t1, (isCacheGet .ifname e || isCachePut .ifname e
          || isCachePut .hostname e || isInsert e || isUpdate e) = false) := by
  unfold FillIfAliasIfMissing
  cases hh : le.ifAlias with
  | some a => exact .inl ⟨le, [], rfl, rfl, rfl, rfl, rfl, by simp⟩
  | none =>
      rcases fillIfAlias_cases o le with
        ⟨a, _, heq⟩ | ⟨_, ⟨s, _, heq⟩ | ⟨_, heq⟩ | ⟨_, heq⟩⟩
      · exact .inl ⟨_, _, heq, rfl, rfl, rfl, rfl, by
          intro e he; simp at he; subst he; rfl⟩
      · exact .inl ⟨_, _, heq, rfl, rfl, rfl, rfl, by
          intro e he; simp at he
          rcases he with rfl | rfl | rfl | rfl | rfl <;> rfl⟩
      · exact .inl ⟨_, _, heq, rfl, rfl, rfl, rfl, by
          intro e he; simp at he
          rcases he with rfl | rfl | rfl | rfl <;> rfl⟩
      · exact .inr ⟨_, heq, by
          intro e he; simp at he
          rcases he with rfl | rfl | rfl | rfl <;> rfl⟩

/-- Composition equation of `FetchMissingData` when the hostname and
ifName steps return normally: the result is the ifAlias step's and the
traces concatenate. -/
theorem fetchMissingData_eq (o : Oracle) (le le1 le2 : LinkEvent)
    (t1 t2 : List Evt)
    (h1 : FillHostNameIfMissing o le = (.ok le1, t1))
    (h2 : FillIfNameIfMissing o le1 = (.ok le2, t2)) :
    FetchMissingData o le =
      ((FillIfAliasIfMissing o le2).1,
        t1 ++ t2 ++ (FillIfAliasIfMissing o le2).2) := by
  unfold FetchMissingData
  rw [show andThen (FillHostNameIfMissing o le) (FillIfNameIfMissing o)
        = (.ok le2, t1 ++ t2) by rw [h1]; simp [andThen, h2]]
  simp [andThen]

/-- Composition equation of `FetchMissingData` when the hostname step
panics. -/
theorem fetchMissingData_eq_panic1 (o : Oracle) (le : LinkEvent)
    (gp : GoPanic) (t1 : List Evt)
    (h1 : FillHostNameIfMissing o le = (.error gp, t1)) :
    FetchMissingData o le = (.error gp, t1) := by
  unfold FetchMissingData
  rw [show andThen (FillHostNameIfMissing o le) (FillIfNameIfMissing o)
        = (.error gp, t1) by rw [h1]; simp [andThen]]
  simp [andThen]

/-- Composition equation of `FetchMissingData` when the hostname step
returns normally and the ifName step panics. -/
theorem fetchMissingData_eq_panic2 (o : Oracle) (le le1 : LinkEvent)
    (gp : GoPanic) (t1 t2 : List Evt)
    (h1 : FillHostNameIfMissing o le = (.ok le1, t1))
    (h2 : FillIfNameIfMissing o le1 = (.error gp, t2)) :
    FetchMissingData o le = (.error gp, t1 ++ t2) := by
  unfold FetchMissingData
  rw [show andThen (FillHostNameIfMissing o le) (FillIfNameIfMissing o)
        = (.error gp, t1 ++ t2) by rw [h1]; simp [andThen, h2]]
  simp [andThen]

/-- No event of a `FetchMissingData` trace is an event insert or an event
update: resolution only reads/writes caches and queries the device. -/
theorem fetchMissingData_no_persist (o : Oracle) (le : LinkEvent) :
    ∀ e ∈ (FetchMissingData o le).2,
      isInsert e = false ∧ isUpdate e = false := by
  intro e he
  rcases fillHostNameIfMissing_cases o le with
    ⟨le1, t1, heq1, _, _, _, _, hall1⟩ | ⟨t1, heq1, hall1⟩
  · rcases fillIfNameIfMissing_cases o le1 with
      ⟨le2, t2, heq2, _, _, _, _, hall2⟩ | ⟨t2, heq2, hall2⟩
    · rw [fetchMissingData_eq o le le1 le2 t1 t2 heq1 heq2] at he
      simp only [List.append_assoc, List.mem_append] at he
      rcases he with h | h | h
      · have := hall1 e h
        simp only [Bool.or_eq_false_iff] at this; tauto
      · have := hall2 e h
        simp only [Bool.or_eq_false_iff] at this; tauto
      · rcases fillIfAliasIfMissing_cases o le2 with
          ⟨le3, t3, heq3, _, _, _, _, hall3⟩ | ⟨t3, heq3, hall3⟩ <;>
          rw [heq3] at h <;>
          · have := hall3 e h
            simp only [Bool.or_eq_false_iff] at this; tauto
    · rw [fetchMissingData_eq_panic2 o le le1 _ t1 t2 heq1 heq2] at he
      simp only [List.mem_append] at he
      rcases he with h | h
      · have := hall1 e h
        simp only [Bool.or_eq_false_iff] at this; tauto
      · have := hall2 e h
        simp only [Bool.or_eq_false_iff] at this; tauto
  · rw [fetchMissingData_eq_panic1 o le _ t1 heq1] at he
    have := hall1 e he
    simp only [Bool.or_eq_false_iff] at this; tauto

/-! ### The claims -/

/-- C1: the claim says every statement of each delete-then-insert pair
executes on the same transaction. Evaluating the embedded statement lists:
`PutCachedIfName` runs its delete on `tx` but its insert on the raw handle
`c.db` (provider.go line 188), outside the transaction it opened, while
`PutCachedIfAlias` and `PutCachedHostname` do run both statements on `tx`.
The delete-then-insert pair of the ifName cache is therefore not atomic:
committing the transaction commits only the delete, and the deferred
rollback after a commit failure would undo the delete but not the
already-applied insert. -/
theorem putCachedIfName_insert_runs_outside_tx :
    putCachedIfNameStmts.map SqlStmt.exec = [SqlExec.onTx, SqlExec.onDb]
    ∧ putCachedIfAliasStmts.map SqlStmt.exec = [SqlExec.onTx, SqlExec.onTx]
    ∧ putCachedHostnameStmts.map SqlStmt.exec = [SqlExec.onTx, SqlExec.onTx] :=
  ⟨rfl, rfl, rfl⟩

/-- C8: one `CleanUp` run keeps, in each of the three cache tables, exactly
the rows whose timestamp is not older than that kind's configured TTL
(rows with `time < now - ttl` are deleted, rows within the window are never
removed), and all three delete statements execute on the one transaction
opened by `CleanUp`. -/
theorem cleanUp_deletes_exactly_expired (c : ConnectorCfg) (now : Int)
    (db : CacheDB) :
    (∀ r : HostnameRow, r ∈ (CleanUp c now db).cache_hostname ↔
      r ∈ db.cache_hostname ∧ ¬(r.time < now - c.cacheHostnameMinutes))
    ∧ (∀ r : IfRow, r ∈ (CleanUp c now db).cache_ifname ↔
      r ∈ db.cache_ifname ∧ ¬(r.time < now - c.cacheIfNameMinutes))
    ∧ (∀ r : IfRow, r ∈ (CleanUp c now db).cache_ifalias ↔
      r ∈ db.cache_ifalias ∧ ¬(r.time < now - c.cacheIfAliasMinutes))
    ∧ ∀ st ∈ cleanUpStmts, st.exec = SqlExec.onTx := by
  refine ⟨fun r => ?_, fun r => ?_, fun r => ?_, fun st hst => ?_⟩
  · simp [CleanUp, List.mem_filter]
  · simp [CleanUp, List.mem_filter]
  · simp [CleanUp, List.mem_filter]
  · simp only [cleanUpStmts, List.mem_cons, List.not_mem_nil, or_false] at hst
    rcases hst with rfl | rfl | rfl <;> rfl

/-- A TTL configuration and a hostname row used to witness C8. -/
def cfgT : ConnectorCfg := ⟨10, 20, 30⟩

/-- A hostname cache row written at minute 95, within a 30-minute TTL at
minute 100. -/
def rowFreshT : HostnameRow := ⟨"10.0.0.1", some "sw1", 95⟩

/-- A cache state holding only the fresh hostname row. -/
def dbT : CacheDB := ⟨[rowFreshT], [], []⟩

/-- C8 witness: at time 100, a hostname row from minute 95 survives a
cleanup with a 30-minute hostname TTL. -/
theorem cleanUp_deletes_exactly_expired_witness :
    rowFreshT ∈ (CleanUp cfgT 100 dbT).cache_hostname :=
  ((cleanUp_deletes_exactly_expired cfgT 100 dbT).1 rowFreshT).mpr
    ⟨by decide, by decide⟩

/-- The mutual-exclusion invariant of `snmpSema.mx`: when the lock is free
nobody is querying, and at most one task is querying at any time. -/
def MxInv {n : Nat} (s : MxState n) : Prop :=
  (s.locked = false → ∀ i, s.pc i ≠ .querying)
  ∧ ∀ i j, s.pc i = .querying → s.pc j = .querying → i = j

/-- Every reachable state of the serializer transition system satisfies
the mutual-exclusion invariant. -/
theorem mxInv_of_reachable {n : Nat} {s : MxState n}
    (h : MxReachable n s) : MxInv s := by
  induction h with
  | init =>
      refine ⟨fun _ i hq => ?_, fun i j hi _ => ?_⟩
      · simp [mxInit] at hq
      · simp [mxInit] at hi
  | step _ hstep ih =>
      obtain ⟨ih1, ih2⟩ := ih
      cases hstep with
      | acquire i hready hfree =>
          constructor
          · intro hl
            exact absurd hl (by simp)
          · intro a b ha hb
            dsimp only at ha hb
            have hna : a = i := by
              by_contra hne
              rw [Function.update_noteq hne] at ha
              exact ih1 hfree a ha
            have hnb : b = i := by
              by_contra hne
              rw [Function.update_noteq hne] at hb
              exact ih1 hfree b hb
            rw [hna, hnb]
      | release i hq =>
          constructor
          · intro _ a ha
            dsimp only at ha
            by_cases hai : a = i
            · subst hai
              rw [Function.update_same] at ha
              cases ha
            · rw [Function.update_noteq hai] at ha
              exact hai (ih2 a i ha hq)
          · intro a b ha hb
            dsimp only at ha hb
            exfalso
            by_cases hai : a = i
            · subst hai
              rw [Function.update_same] at ha
              cases ha
            · rw [Function.update_noteq hai] at ha
              exact hai (ih2 a i ha hq)

/-- C9: every outbound device query runs inside the process-wide gate —
one `getSNMPString` call traces exactly lock, one query, unlock — and in
the interleaving semantics of that lock discipline, any two tasks whose
device queries are in flight in a reachable state are the same task: at
most one device query is in flight system-wide. -/
theorem snmp_queries_serialized :
    (∀ (o : Oracle) (oid ip : String),
      (getSNMPString o oid ip).2 = [.lock, .snmpGet oid ip, .unlock])
    ∧ ∀ (n : Nat) (s : MxState n), MxReachable n s →
        ∀ i j, s.pc i = .querying → s.pc j = .querying → i = j := by
  constructor
  · intro o oid ip
    cases h : o.snmp oid ip <;> simp [getSNMPString, h]
  · intro n s h i j hi hj
    exact (mxInv_of_reachable h).2 i j hi hj

/-- The serializer state after task 0 of 2 acquires the lock. -/
def mxS1 : MxState 2 := ⟨Function.update (mxInit 2).pc 0 Phase.querying, true⟩

/-- C9 witness: a concrete reachable two-task state with task 0 querying;
the serialization theorem applies to it, and a concrete `getSNMPString`
trace is lock-query-unlock. -/
theorem snmp_queries_serialized_witness :
    (getSNMPString oConnFail sysNameOID "10.0.0.5").2 =
      [Evt.lock, Evt.snmpGet sysNameOID "10.0.0.5", Evt.unlock]
    ∧ (0 : Fin 2) = 0 := by
  have hreach : MxReachable 2 mxS1 :=
    MxReachable.step MxReachable.init
      (MxStep.acquire (mxInit 2) 0 rfl rfl)
  exact ⟨snmp_queries_serialized.1 oConnFail sysNameOID "10.0.0.5",
    snmp_queries_serialized.2 2 mxS1 hreach 0 0
      (by simp [mxS1]) (by simp [mxS1])⟩

/-- C4 (as stated) is false on the empty-response case: evaluating
`getSNMPString` in an environment whose device query returns a PDU with an
empty variable binding list yields the index-out-of-range panic of
`pdu.Variables[0]`, not an error return value (though the deferred unlock
still releases the gate). -/
theorem getSNMPString_empty_pdu_panics :
    (getSNMPString oEmpty sysNameOID "10.0.0.1").1 =
      Except.error GoPanic.indexOutOfRange
    ∧ (getSNMPString oEmpty sysNameOID "10.0.0.1").2 =
      [Evt.lock, Evt.snmpGet sysNameOID "10.0.0.1", Evt.unlock] :=
  ⟨rfl, rfl⟩

/-- C4 amended: a connection failure or an oddly-typed (non-byte-string)
response is surfaced to the caller as an error return value with the gate
released; but a PDU whose variable list is empty makes `getSNMPString`
panic (index out of range) instead of returning an error — the gate is
still released by the deferred unlock. -/
theorem getSNMPString_error_paths (o : Oracle) (oid ip : String) :
    (o.snmp oid ip = .connError →
      getSNMPString o oid ip =
        (.ok (.error .connFailure), [.lock, .snmpGet oid ip, .unlock]))
    ∧ (o.snmp oid ip = .wrongType →
      getSNMPString o oid ip =
        (.ok (.error .receivedNil), [.lock, .snmpGet oid ip, .unlock]))
    ∧ (o.snmp oid ip = .empty →
      getSNMPString o oid ip =
        (.error .indexOutOfRange, [.lock, .snmpGet oid ip, .unlock])) := by
  refine ⟨fun h => ?_, fun h => ?_, fun h => ?_⟩ <;> simp [getSNMPString, h]

/-- C4 witness: a concrete connection failure returns the connection error
with the gate locked then released. -/
theorem getSNMPString_error_paths_witness :
    getSNMPString oConnFail sysNameOID "10.0.0.6" =
      (.ok (.error .connFailure),
        [.lock, .snmpGet sysNameOID "10.0.0.6", .unlock]) :=
  (getSNMPString_error_paths oConnFail sysNameOID "10.0.0.6").1 rfl

/-- C6: a trap whose event-type value is neither the linkUp nor the
linkDown identifier produces an empty call trace through `OnNewTrap` —
zero persistence calls (no insert, no update, no cache read or write) and
zero SNMP calls. -/
theorem nonlink_trap_no_calls (o : Oracle) (p : SnmpPacket)
    (addr sid : String)
    (h1 : getEventOID p ≠ .ok linkUP) (h2 : getEventOID p ≠ .ok linkDOWN) :
    (OnNewTrap o p addr sid).2 = [] := by
  unfold OnNewTrap IsLinkEvent
  cases hE : getEventOID p with
  | error gp => simp
  | ok s =>
      have hs1 : s ≠ linkUP := fun h => h1 (by rw [hE, h])
      have hs2 : s ≠ linkDOWN := fun h => h2 (by rw [hE, h])
      simp [hs1, hs2]

/-- Is this Go dynamic value an `int`? -/
def isIntValue : GoValue → Bool
  | .int _ => true
  | _ => false

/-- Is this Go dynamic value a `string`? -/
def isStrValue : GoValue → Bool
  | .str _ => true
  | _ => false

/-- A variable binding that cannot trip an unchecked type assertion: if
its name is the event-type reference its value is a string, and if its
name matches one of the three integer-field OID prefixes its value is an
int. The JunOS ifName and timeTicks fields are unconstrained — those two
use the checked assertion form. -/
def safeVarBind (v : SnmpPDU) : Bool :=
  (!(decide (v.name = oidReference)) || isStrValue v.value)
  && (!(strContains v.name ifIndexOIDPfx
        || strContains v.name ifAdminStatusOIDPfx
        || strContains v.name ifOperStatusOIDPfx)
      || isIntValue v.value)

/-- Destructured reading of `safeVarBind`: an event-type binding carries a
string, and a binding matching one of the three integer-field prefixes
carries an int. -/
theorem safeVarBind_parts {v : SnmpPDU} (h : safeVarBind v = true) :
    (v.name = oidReference → isStrValue v.value = true)
    ∧ ((strContains v.name ifIndexOIDPfx
        || strContains v.name ifAdminStatusOIDPfx
        || strContains v.name ifOperStatusOIDPfx) = true →
      isIntValue v.value = true) := by
  unfold safeVarBind at h
  have h1 := (Bool.and_eq_true _ _ ▸ h).1
  have h2 := (Bool.and_eq_true _ _ ▸ h).2
  constructor
  · intro hn
    rcases (Bool.or_eq_true _ _ ▸ h1 : _ ∨ _) with hno | hstr
    · rw [Bool.not_eq_true'] at hno
      simp [hn] at hno
    · exact hstr
  · intro hc
    rcases (Bool.or_eq_true _ _ ▸ h2 : _ ∨ _) with hno | hint
    · rw [Bool.not_eq_true'] at hno
      rw [hc] at hno
      cases hno
    · exact hint

/-- Processing one binding whose value cannot trip an unchecked assertion
returns normally. -/
theorem applyVarBind_ok_of_safe (le : LinkEvent) (v : SnmpPDU)
    (h : safeVarBind v = true) : ∃ le2, applyVarBind le v = .ok le2 := by
  have hp := (safeVarBind_parts h).2
  by_cases hc : (strContains v.name ifIndexOIDPfx
      || strContains v.name ifAdminStatusOIDPfx
      || strContains v.name ifOperStatusOIDPfx) = true
  · obtain ⟨n, hv⟩ : ∃ n, v.value = .int n := by
      have hi := hp hc
      cases hv : v.value <;> simp [isIntValue, hv] at hi ⊢
    unfold applyVarBind
    rw [hv]
    split_ifs <;> exact ⟨_, rfl⟩
  · rw [Bool.not_eq_true] at hc
    simp only [Bool.or_eq_false_iff] at hc
    obtain ⟨⟨hA, hB⟩, hC⟩ := hc
    unfold applyVarBind
    simp only [hA, hB, hC, Bool.false_eq_true, if_false]
    split_ifs <;>
      first
        | exact ⟨_, rfl⟩
        | (cases v.value <;> exact ⟨_, rfl⟩)

/-- Classifying a packet of safe bindings never panics. -/
theorem getEventOIDFrom_ok_of_safe (l : List SnmpPDU)
    (h : ∀ v ∈ l, safeVarBind v = true) :
    ∃ s, getEventOIDFrom l = .ok s := by
  induction l with
  | nil => exact ⟨"", rfl⟩
  | cons v rest ih =>
      by_cases hn : v.name = oidReference
      · have hstr := (safeVarBind_parts (h v (by simp))).1 hn
        obtain ⟨s, hv⟩ : ∃ s, v.value = .str s := by
          cases hv : v.value <;> simp [isStrValue, hv] at hstr ⊢
        exact ⟨s, by simp [getEventOIDFrom, hn, hv]⟩
      · obtain ⟨s, hs⟩ := ih (fun w hw => h w (by simp [hw]))
        exact ⟨s, by simp [getEventOIDFrom, hn, hs]⟩

/-- The extraction loop over safe bindings never panics. -/
theorem foldVarBinds_ok_of_safe (le : LinkEvent) (l : List SnmpPDU)
    (h : ∀ v ∈ l, safeVarBind v = true) :
    ∃ le2, foldVarBinds le l = .ok le2 := by
  induction l generalizing le with
  | nil => exact ⟨le, rfl⟩
  | cons v rest ih =>
      obtain ⟨le1, h1⟩ := applyVarBind_ok_of_safe le v (h v (by simp))
      obtain ⟨le2, h2⟩ := ih le1 (fun w hw => h w (by simp [hw]))
      exact ⟨le2, by simp only [foldVarBinds]; rw [h1]; exact h2⟩

/-- A linkUp trap carrying an ifIndex binding whose value is a byte string
instead of an integer. -/
def pIfIndexBytes : SnmpPacket :=
  ⟨[⟨oidReference, .str linkUP⟩, ⟨".1.3.6.1.2.1.2.2.1.1.9", .bytes "x"⟩]⟩

/-- C2 counterexample: on an accepted (linkUp) trap whose ifIndex binding
carries a byte string, `FromSnmpPacket` does not skip the field — the
unchecked assertion `variable.Value.(int)` panics and handling of the
whole trap aborts. -/
theorem extraction_panics_on_noninteger_ifIndex :
    IsLinkEvent pIfIndexBytes = .ok true
    ∧ FromSnmpPacket {} pIfIndexBytes "10.0.0.2" =
        .error .typeAssertion := by
  constructor <;> decide

/-- C2 amended: extraction is best-effort only for the vendor (JunOS)
interface-name and uptime-counter fields — a wrong representation there is
skipped with a logged warning and the trap continues; the interface index,
admin status and operational status fields are read with unchecked type
assertions, so trap handling never aborts only when every binding matching
those OID prefixes carries an integer (and the event-type binding a
string). -/
theorem extraction_total_on_safe_values (le : LinkEvent) (p : SnmpPacket)
    (addr : String) (h : ∀ v ∈ p.Variables, safeVarBind v = true) :
    ∃ ev, FromSnmpPacket le p addr = .ok ev := by
  obtain ⟨s, hs⟩ := getEventOIDFrom_ok_of_safe p.Variables h
  have hIs : IsLinkEvent p = .ok (decide (s = linkUP) || decide (s = linkDOWN)) := by
    simp [IsLinkEvent, getEventOID, hs]
  unfold FromSnmpPacket
  rw [hIs]
  by_cases hb : (decide (s = linkUP) || decide (s = linkDOWN)) = true
  · rw [hb]
    obtain ⟨ev, hev⟩ :=
      foldVarBinds_ok_of_safe { le with ipAddress := addr } p.Variables h
    exact ⟨ev, hev⟩
  · rw [Bool.not_eq_true] at hb
    rw [hb]
    exact ⟨le, rfl⟩

/-- C2 witness: a well-formed linkDown trap (integer ifIndex, statuses,
uint timeTicks) extracts without panicking. -/
theorem extraction_total_on_safe_values_witness :
    ∃ ev, FromSnmpPacket {} pGood "10.0.0.3" = .ok ev :=
  extraction_total_on_safe_values {} pGood "10.0.0.3" (by decide)

/-- The JunOS ifName match pattern is a string prefix of the ifAlias OID
prefix, so `strings.Contains` accepts every OID that begins with the
ifAlias prefix. -/
theorem contains_junos_of_alias_oid {vname : String}
    (h : ifAliasOIDPfx.toList <+: vname.toList) :
    strContains vname ifNameVarBindPfxJunOS = true := by
  have hj : ifNameVarBindPfxJunOS.toList <+: ifAliasOIDPfx.toList := by decide
  exact decide_eq_true (hj.trans h).isInfix

/-- C10: in an accepted trap carrying a binding whose OID begins with the
ifAlias prefix (and matches none of the three integer-field prefixes),
`FromSnmpPacket` stores that binding's byte-string value into the event's
`ifName` field — the substring check against the JunOS ifName pattern
accepts every ifAlias-prefixed OID — and `ifAlias` is left unset; the
resulting event then performs no ifName cache lookup and no ifName cache
write during `FetchMissingData` (ifName resolution is skipped). -/
theorem alias_prefixed_binding_fills_ifName (vname s addr : String)
    (h0 : ifAliasOIDPfx.toList <+: vname.toList)
    (h1 : strContains vname ifIndexOIDPfx = false)
    (h2 : strContains vname ifAdminStatusOIDPfx = false)
    (h3 : strContains vname ifOperStatusOIDPfx = false) :
    FromSnmpPacket {} ⟨[⟨oidReference, .str linkUP⟩, ⟨vname, .bytes s⟩]⟩ addr
      = .ok { ipAddress := addr, ifName := some s }
    ∧ ∀ o : Oracle,
        ((FetchMissingData o { ipAddress := addr, ifName := some s }).2).countP
            (isCacheGet .ifname) = 0
        ∧ ((FetchMissingData o { ipAddress := addr, ifName := some s }).2).countP
            (isCachePut .ifname) = 0 := by
  have hj := contains_junos_of_alias_oid h0
  constructor
  · have e2 : ∀ le : LinkEvent, applyVarBind le ⟨vname, .bytes s⟩ =
        .ok { le with ifName := some s } := by
      intro le
      unfold applyVarBind
      simp only [h1, h2, h3, hj, Bool.false_eq_true, if_false, if_true]
    have hstart : FromSnmpPacket {}
        ⟨[⟨oidReference, .str linkUP⟩, ⟨vname, .bytes s⟩]⟩ addr
        = foldVarBinds { ipAddress := addr } [⟨vname, .bytes s⟩] := rfl
    rw [hstart]
    simp only [foldVarBinds]
    rw [e2]
    rfl
  · intro o
    set ev : LinkEvent := { ipAddress := addr, ifName := some s } with hev
    rcases fillHostNameIfMissing_cases o ev with
      ⟨le1, t1, heq1, _, _, hifn, _, hall1⟩ | ⟨t1, heq1, hall1⟩
    · have heq2 : FillIfNameIfMissing o le1 = (.ok le1, []) := by
        unfold FillIfNameIfMissing
        rw [show le1.ifName = some s from hifn]
      rw [fetchMissingData_eq o ev le1 le1 t1 [] heq1 heq2]
      rcases fillIfAliasIfMissing_cases o le1 with
        ⟨le3, t3, heq3, _, _, _, _, hall3⟩ | ⟨t3, heq3, hall3⟩ <;>
        · rw [heq3]
          constructor <;>
            · rw [List.countP_eq_zero]
              intro e he
              simp only [List.append_nil, List.mem_append] at he
              rcases he with h | h
              · have := hall1 e h
                simp only [Bool.or_eq_false_iff] at this
                simp [this.1.1.1.1, this.1.1.1.2]
              · have := hall3 e h
                simp only [Bool.or_eq_false_iff] at this
                simp [this.1.1.1.1, this.1.1.1.2]
    · rw [fetchMissingData_eq_panic1 o ev _ t1 heq1]
      constructor <;>
        · rw [List.countP_eq_zero]
          intro e he
          have := hall1 e he
          simp only [Bool.or_eq_false_iff] at this
          simp [this.1.1.1.1, this.1.1.1.2]

/-- C10 witness: a concrete ifAlias-prefixed binding (index 3) with value
"uplink" lands in `ifName`. -/
theorem alias_prefixed_binding_fills_ifName_witness :
    FromSnmpPacket {} ⟨[⟨oidReference, .str linkUP⟩,
        ⟨".1.3.6.1.2.1.31.1.1.1.18.3", .bytes "uplink"⟩]⟩ "10.0.0.4"
      = .ok { ipAddress := "10.0.0.4", ifName := some "uplink" } :=
  (alias_prefixed_binding_fills_ifName ".1.3.6.1.2.1.31.1.1.1.18.3" "uplink"
    "10.0.0.4" (by decide) (by decide) (by decide) (by decide)).1

/-- A coldStart trap: its event-type value is not a link event. -/
def pColdStart : SnmpPacket :=
  ⟨[⟨oidReference, .str ".1.3.6.1.6.3.1.1.5.1"⟩]⟩

/-- C6 witness: the pipeline performs no call at all on a concrete
coldStart trap. -/
theorem nonlink_trap_no_calls_witness :
    (OnNewTrap oConnFail pColdStart "10.0.0.7" "sid7").2 = [] :=
  nonlink_trap_no_calls oConnFail pColdStart "10.0.0.7" "sid7"
    (by decide) (by decide)

/-- C3: for each of the three metadata fields — a live cache entry is
adopted with no SNMP traffic (the trace is the single cache read); on a
cache miss (or lookup error) exactly one SNMP GET is issued, for that
field's OID (the hostname OID, or the ifName/ifAlias OID prefix
concatenated with the interface index), and a successful value is stored
on the event with exactly one cache write-back for that key (the full
trace is cache read, gate lock, the one query, gate unlock, one cache
put). -/
theorem cache_first_resolution (o : Oracle) (le : LinkEvent) :
    ((∀ h, o.cache .hostname le.ipAddress 0 = some h →
        FillHostName o le = (.ok { le with hostName := some h },
          [.cacheGet .hostname le.ipAddress 0]))
     ∧ (o.cache .hostname le.ipAddress 0 = none →
        (FillHostName o le).2.countP isSnmpGet = 1
        ∧ (FillHostName o le).2.countP
            (isSnmpGetFor sysNameOID le.ipAddress) = 1
        ∧ ∀ s, o.snmp sysNameOID le.ipAddress = .value s →
            FillHostName o le = (.ok { le with hostName := some s },
              [.cacheGet .hostname le.ipAddress 0, .lock,
               .snmpGet sysNameOID le.ipAddress, .unlock,
               .cachePut .hostname le.ipAddress 0 (some s)])))
    ∧ ((∀ n, o.cache .ifname le.ipAddress le.ifIndex = some n →
        FillIfName o le = (.ok { le with ifName := some n },
          [.cacheGet .ifname le.ipAddress le.ifIndex]))
     ∧ (o.cache .ifname le.ipAddress le.ifIndex = none →
        (FillIfName o le).2.countP isSnmpGet = 1
        ∧ (FillIfName o le).2.countP
            (isSnmpGetFor (ifNameOIDPfx ++ toString le.ifIndex) le.ipAddress) = 1
        ∧ ∀ s, o.snmp (ifNameOIDPfx ++ toString le.ifIndex) le.ipAddress
              = .value s →
            FillIfName o le = (.ok { le with ifName := some s },
              [.cacheGet .ifname le.ipAddress le.ifIndex, .lock,
               .snmpGet (ifNameOIDPfx ++ toString le.ifIndex) le.ipAddress,
               .unlock,
               .cachePut .ifname le.ipAddress le.ifIndex none])))
    ∧ ((∀ a, o.cache .ifalias le.ipAddress le.ifIndex = some a →
        FillIfAlias o le = (.ok { le with ifAlias := some a },
          [.cacheGet .ifalias le.ipAddress le.ifIndex]))
     ∧ (o.cache .ifalias le.ipAddress le.ifIndex = none →
        (FillIfAlias o le).2.countP isSnmpGet = 1
        ∧ (FillIfAlias o le).2.countP
            (isSnmpGetFor (ifAliasOIDPfx ++ toString le.ifIndex) le.ipAddress) = 1
        ∧ ∀ s, o.snmp (ifAliasOIDPfx ++ toString le.ifIndex) le.ipAddress
              = .value s →
            FillIfAlias o le = (.ok { le with ifAlias := some s },
              [.cacheGet .ifalias le.ipAddress le.ifIndex, .lock,
               .snmpGet (ifAliasOIDPfx ++ toString le.ifIndex) le.ipAddress,
               .unlock,
               .cachePut .ifalias le.ipAddress le.ifIndex (some s)]))) := by
  refine ⟨⟨fun h hc => ?_, fun hc => ?_⟩,
    ⟨fun n hc => ?_, fun hc => ?_⟩, ⟨fun a hc => ?_, fun hc => ?_⟩⟩
  · unfold FillHostName
    rw [hc]
  · rcases fillHostName_cases o le with ⟨h, hc2, _⟩ | ⟨_, hrest⟩
    · rw [hc] at hc2
      cases hc2
    · rcases hrest with ⟨s, hs, heq⟩ | ⟨hs, heq⟩ | ⟨hs, heq⟩
      · refine ⟨by rw [heq]; rfl, by rw [heq]; simp [isSnmpGetFor],
          fun s2 hs2 => ?_⟩
        rw [hs] at hs2
        injection hs2 with h'
        subst h'
        exact heq
      · refine ⟨by rw [heq]; rfl, by rw [heq]; simp [isSnmpGetFor],
          fun s2 hs2 => ?_⟩
        rcases hs with hs | hs <;> rw [hs] at hs2 <;> cases hs2
      · refine ⟨by rw [heq]; rfl, by rw [heq]; simp [isSnmpGetFor],
          fun s2 hs2 => ?_⟩
        rw [hs] at hs2
        cases hs2
  · unfold FillIfName
    rw [hc]
  · rcases fillIfName_cases o le with ⟨n, hc2, _⟩ | ⟨_, hrest⟩
    · rw [hc] at hc2
      cases hc2
    · rcases hrest with ⟨s, hs, heq⟩ | ⟨hs, heq⟩ | ⟨hs, heq⟩
      · refine ⟨by rw [heq]; rfl, by rw [heq]; simp [isSnmpGetFor],
          fun s2 hs2 => ?_⟩
        rw [hs] at hs2
        injection hs2 with h'
        subst h'
        exact heq
      · refine ⟨by rw [heq]; rfl, by rw [heq]; simp [isSnmpGetFor],
          fun s2 hs2 => ?_⟩
        rcases hs with hs | hs <;> rw [hs] at hs2 <;> cases hs2
      · refine ⟨by rw [heq]; rfl, by rw [heq]; simp [isSnmpGetFor],
          fun s2 hs2 => ?_⟩
        rw [hs] at hs2
        cases hs2
  · unfold FillIfAlias
    rw [hc]
  · rcases fillIfAlias_cases o le with ⟨a, hc2, _⟩ | ⟨_, hrest⟩
    · rw [hc] at hc2
      cases hc2
    · rcases hrest with ⟨s, hs, heq⟩ | ⟨hs, heq⟩ | ⟨hs, heq⟩
      · refine ⟨by rw [heq]; rfl, by rw [heq]; simp [isSnmpGetFor],
          fun s2 hs2 => ?_⟩
        rw [hs] at hs2
        injection hs2 with h'
        subst h'
        exact heq
      · refine ⟨by rw [heq]; rfl, by rw [heq]; simp [isSnmpGetFor],
          fun s2 hs2 => ?_⟩
        rcases hs with hs | hs <;> rw [hs] at hs2 <;> cases hs2
      · refine ⟨by rw [heq]; rfl, by rw [heq]; simp [isSnmpGetFor],
          fun s2 hs2 => ?_⟩
        rw [hs] at hs2
        cases hs2

/-- An environment whose hostname cache is live ("sw1") for 10.0.0.9 while
the ifName and ifAlias caches miss; device queries succeed with "eth0". -/
def oHostCached : Oracle :=
  ⟨fun k ip _ => if k = CacheKind.hostname ∧ ip = "10.0.0.9"
      then some "sw1" else none,
   fun _ _ => .value "eth0", true⟩

/-- An event from 10.0.0.9, interface 7, with nothing resolved yet. -/
def leT9 : LinkEvent := { ipAddress := "10.0.0.9", ifIndex := 7 }

/-- C3 witness: with a live hostname cache the hostname resolution is the
single cache read; with a missing ifName cache the ifName resolution
issues exactly one SNMP GET. -/
theorem cache_first_resolution_witness :
    FillHostName oHostCached leT9 = (.ok { leT9 with hostName := some "sw1" },
      [.cacheGet .hostname "10.0.0.9" 0])
    ∧ (FillIfName oHostCached leT9).2.countP isSnmpGet = 1 :=
  ⟨(cache_first_resolution oHostCached leT9).1.1 "sw1" (by decide),
   ((cache_first_resolution oHostCached leT9).2.1.2 (by decide)).1⟩

/-- A linkDown trap whose adminStatus binding carries a byte string
instead of an integer. -/
def pAdminBytes : SnmpPacket :=
  ⟨[⟨oidReference, .str linkDOWN⟩, ⟨".1.3.6.1.2.1.2.2.1.7.3", .bytes "x"⟩]⟩

/-- C5 counterexample: this accepted (linkDown) trap performs zero insert
calls — `variable.Value.(int)` panics during extraction, before
`saveLinkEvent` — refuting "for every accepted trap, the handler performs
exactly one insert call". -/
theorem accepted_trap_with_bad_admin_no_insert :
    IsLinkEvent pAdminBytes = .ok true
    ∧ ((LinkEventHandler oConnFail pAdminBytes "10.0.0.1" "sidX").2).countP
        isInsert = 0 := by
  constructor <;> decide

/-- C5 amended: for every accepted trap whose field extraction completes
without a panic, the handler performs exactly one insert call, as the
very first call — before any update — and when the initial insert fails
the trace is exactly that one insert: no SNMP resolution and no update
occur. (Over every accepted trap the original claim fails: an accepted
trap whose integer-field binding carries a wrong dynamic type panics
during extraction and performs no insert at all.) -/
theorem insert_once_before_update (o : Oracle) (p : SnmpPacket)
    (addr sid : String) (ev : LinkEvent)
    (hext : FromSnmpPacket {} p addr = .ok ev) :
    ((LinkEventHandler o p addr sid).2).countP isInsert = 1
    ∧ (∃ rest, (LinkEventHandler o p addr sid).2 = .insert sid :: rest
        ∧ rest.countP isInsert = 0)
    ∧ (o.insertOk = false →
        (LinkEventHandler o p addr sid).2 = [.insert sid]) := by
  unfold LinkEventHandler
  rw [hext]
  cases hins : o.insertOk with
  | false => exact ⟨rfl, ⟨[], rfl, rfl⟩, fun _ => rfl⟩
  | true =>
      have hnp := fetchMissingData_no_persist o ev
      rcases hfd : FetchMissingData o ev with ⟨r, t⟩
      have ht0 : t.countP isInsert = 0 := by
        rw [List.countP_eq_zero]
        intro a ha
        have := (hnp a (by rw [hfd]; exact ha)).1
        simp [this]
      simp only [eq_self_iff_true, if_true]
      rw [hfd]
      cases r with
      | error gp =>
          refine ⟨?_, ⟨t, rfl, ht0⟩, fun hco => Bool.noConfusion hco⟩
          simp [List.countP_cons, ht0, isInsert]
      | ok ev2 =>
          refine ⟨?_, ⟨t ++ [.update sid ev2.hostName ev2.ifName ev2.ifAlias],
            rfl, ?_⟩, fun hco => Bool.noConfusion hco⟩
          · simp [List.countP_cons, List.countP_append, ht0, isInsert]
          · simp [List.countP_append, ht0, isInsert]

/-- The event `pGood` extracts to. -/
def evGood : LinkEvent :=
  { ifIndex := 3, ifAdminStatus := 1, ifOperStatus := 2,
    ipAddress := "10.0.0.3", timeTicks := 55 }

/-- C5 witness: on a well-formed linkDown trap the handler performs
exactly one insert. -/
theorem insert_once_before_update_witness :
    ((LinkEventHandler oConnFail pGood "10.0.0.3" "sid1").2).countP
      isInsert = 1 :=
  (insert_once_before_update oConnFail pGood "10.0.0.3" "sid1" evGood
    (by decide)).1

/-- C7 counterexample: with the ifAlias device query answering an
empty-variable-binding response (one shape of malformed response), the
resolution failure is fatal — the panic aborts the handler before
`updateLinkEvent`, so no update call occurs for the event. -/
theorem alias_empty_response_fatal :
    ((LinkEventHandler oEmptyAlias pGood "10.0.0.3" "sid2").2).countP
        isUpdate = 0
    ∧ (LinkEventHandler oEmptyAlias pGood "10.0.0.3" "sid2").1 =
        .error .indexOutOfRange := by
  constructor <;> decide

/-- Determinism reading of the hostname step: from its concrete normal
outcome, the preservation of the other fields and its trace freedom. -/
theorem fillHostNameIfMissing_of_eq (o : Oracle) (le le1 : LinkEvent)
    (t1 : List Evt) (h : FillHostNameIfMissing o le = (.ok le1, t1)) :
    le1.ifIndex = le.ifIndex ∧ le1.ipAddress = le.ipAddress
    ∧ le1.ifName = le.ifName ∧ le1.ifAlias = le.ifAlias
    ∧ ∀ e ∈ t1, (isCacheGet .ifname e || isCachePut .ifname e
        || isCachePut .ifalias e || isInsert e || isUpdate e) = false := by
  rcases fillHostNameIfMissing_cases o le with
    ⟨le1', t1', heq', h1, h2, h3, h4, hall⟩ | ⟨t1', heq', hall⟩
  · rw [h] at heq'
    injection heq' with he ht
    injection he with he
    subst he
    subst ht
    exact ⟨h1, h2, h3, h4, hall⟩
  · rw [h] at heq'
    injection heq' with he ht
    cases he

/-- Determinism reading of the ifName step. -/
theorem fillIfNameIfMissing_of_eq (o : Oracle) (le le1 : LinkEvent)
    (t1 : List Evt) (h : FillIfNameIfMissing o le = (.ok le1, t1)) :
    le1.ifIndex = le.ifIndex ∧ le1.ipAddress = le.ipAddress
    ∧ le1.hostName = le.hostName ∧ le1.ifAlias = le.ifAlias
    ∧ ∀ e ∈ t1, (isCachePut .hostname e || isCachePut .ifalias e
        || isInsert e || isUpdate e) = false := by
  rcases fillIfNameIfMissing_cases o le with
    ⟨le1', t1', heq', h1, h2, h3, h4, hall⟩ | ⟨t1', heq', hall⟩
  · rw [h] at heq'
    injection heq' with he ht
    injection he with he
    subst he
    subst ht
    exact ⟨h1, h2, h3, h4, hall⟩
  · rw [h] at heq'
    injection heq' with he ht
    cases he

/-- Determinism reading of the ifAlias step. -/
theorem fillIfAliasIfMissing_of_eq (o : Oracle) (le le1 : LinkEvent)
    (t1 : List Evt) (h : FillIfAliasIfMissing o le = (.ok le1, t1)) :
    le1.ifIndex = le.ifIndex ∧ le1.ipAddress = le.ipAddress
    ∧ le1.hostName = le.hostName ∧ le1.ifName = le.ifName
    ∧ ∀ e ∈ t1, (isCacheGet .ifname e || isCachePut .ifname e
        || isCachePut .hostname e || isInsert e || isUpdate e) = false := by
  rcases fillIfAliasIfMissing_cases o le with
    ⟨le1', t1', heq', h1, h2, h3, h4, hall⟩ | ⟨t1', heq', hall⟩
  · rw [h] at heq'
    injection heq' with he ht
    injection he with he
    subst he
    subst ht
    exact ⟨h1, h2, h3, h4, hall⟩
  · rw [h] at heq'
    injection heq' with he ht
    cases he

/-- The handler trace when extraction and the insert succeed and
resolution returns normally: one insert, the resolution trace, then one
update carrying the resolved fields. -/
theorem linkEventHandler_eq_of_fetch (o : Oracle) (p : SnmpPacket)
    (addr sid : String) (ev evF : LinkEvent) (T : List Evt)
    (hext : FromSnmpPacket {} p addr = .ok ev)
    (hins : o.insertOk = true)
    (hfd : FetchMissingData o ev = (.ok evF, T)) :
    LinkEventHandler o p addr sid =
      (.ok (), .insert sid ::
        (T ++ [.update sid evF.hostName evF.ifName evF.ifAlias])) := by
  unfold LinkEventHandler
  rw [hext, hins]
  simp only [eq_self_iff_true, if_true]
  rw [hfd]

/-- The update appended after the insert and the resolution trace is the
last call of the handler. -/
theorem getLast_insert_concat (sid : String) (T : List Evt) (u : Evt) :
    (Evt.insert sid :: (T ++ [u])).getLast? = some u := by
  rw [show Evt.insert sid :: (T ++ [u])
      = (Evt.insert sid :: T) ++ [u] from by simp]
  exact List.getLast?_concat _

/-- A predicate counts zero when it is false on every element. -/
theorem countP_eq_zero_of_all {T : List Evt} {q : Evt → Bool}
    (h : ∀ e ∈ T, q e = false) : T.countP q = 0 := by
  rw [List.countP_eq_zero]
  intro a ha
  simp [h a ha]

/-- C7 amended: for each of the three metadata fields, when that field's
SNMP resolution fails with an error return (connection failure or wrong
value type — not the empty-response panic of C4) while the other
resolution steps return normally, the failure is logged, the field stays
null on the event, no cache write for that field occurs anywhere in the
run, and the update call still occurs — exactly once, as the last call —
carrying whichever other fields were resolved. One conjunct per field:
hostname failing, ifName failing, ifAlias failing. -/
theorem field_error_leaves_field_null_update_still_runs
    (o : Oracle) (p : SnmpPacket) (addr sid : String) (ev : LinkEvent)
    (hext : FromSnmpPacket {} p addr = .ok ev)
    (hins : o.insertOk = true) :
    (∀ ev2 ev3 t2 t3,
      ev.hostName = none →
      o.cache .hostname ev.ipAddress 0 = none →
      (o.snmp sysNameOID ev.ipAddress = .connError ∨
        o.snmp sysNameOID ev.ipAddress = .wrongType) →
      FillIfNameIfMissing o ev = (.ok ev2, t2) →
      FillIfAliasIfMissing o ev2 = (.ok ev3, t3) →
      ∃ t, LinkEventHandler o p addr sid = (.ok (), t)
        ∧ t.countP isUpdate = 1
        ∧ t.getLast? = some (.update sid none ev3.ifName ev3.ifAlias)
        ∧ t.countP (isCachePut .hostname) = 0)
    ∧ (∀ ev1 ev3 t1 t3,
      FillHostNameIfMissing o ev = (.ok ev1, t1) →
      ev1.ifName = none →
      o.cache .ifname ev1.ipAddress ev1.ifIndex = none →
      (o.snmp (ifNameOIDPfx ++ toString ev1.ifIndex) ev1.ipAddress
          = .connError ∨
        o.snmp (ifNameOIDPfx ++ toString ev1.ifIndex) ev1.ipAddress
          = .wrongType) →
      FillIfAliasIfMissing o ev1 = (.ok ev3, t3) →
      ∃ t, LinkEventHandler o p addr sid = (.ok (), t)
        ∧ t.countP isUpdate = 1
        ∧ t.getLast? = some (.update sid ev3.hostName none ev3.ifAlias)
        ∧ t.countP (isCachePut .ifname) = 0)
    ∧ (∀ ev1 ev2 t1 t2,
      FillHostNameIfMissing o ev = (.ok ev1, t1) →
      FillIfNameIfMissing o ev1 = (.ok ev2, t2) →
      ev2.ifAlias = none →
      o.cache .ifalias ev2.ipAddress ev2.ifIndex = none →
      (o.snmp (ifAliasOIDPfx ++ toString ev2.ifIndex) ev2.ipAddress
          = .connError ∨
        o.snmp (ifAliasOIDPfx ++ toString ev2.ifIndex) ev2.ipAddress
          = .wrongType) →
      ∃ t, LinkEventHandler o p addr sid = (.ok (), t)
        ∧ t.countP isUpdate = 1
        ∧ t.getLast? = some (.update sid ev2.hostName ev2.ifName none)
        ∧ t.countP (isCachePut .ifalias) = 0) := by
  refine ⟨fun ev2 ev3 t2 t3 hHN hCM hSF h2 h3 => ?_,
    fun ev1 ev3 t1 t3 h1 hNN hCM hSF h3 => ?_,
    fun ev1 ev2 t1 t2 h1 h2 hAN hCM hSF => ?_⟩
  · have h1 : FillHostNameIfMissing o ev = (.ok ev,
        [.cacheGet .hostname ev.ipAddress 0, .lock,
         .snmpGet sysNameOID ev.ipAddress, .unlock]) := by
      unfold FillHostNameIfMissing
      rw [hHN]
      unfold FillHostName
      rw [hCM]
      rcases hSF with hs | hs <;> simp [getSNMPString, hs]
    obtain ⟨-, -, hNhn, -, hallN⟩ := fillIfNameIfMissing_of_eq o ev ev2 t2 h2
    obtain ⟨-, -, hAhn, -, hallA⟩ :=
      fillIfAliasIfMissing_of_eq o ev2 ev3 t3 h3
    have hnull : ev3.hostName = none := by rw [hAhn, hNhn, hHN]
    have hfd : FetchMissingData o ev = (.ok ev3,
        ([.cacheGet .hostname ev.ipAddress 0, .lock,
          .snmpGet sysNameOID ev.ipAddress, .unlock] ++ t2) ++ t3) := by
      rw [fetchMissingData_eq o ev ev ev2 _ t2 h1 h2, h3]
    have heq := linkEventHandler_eq_of_fetch o p addr sid ev ev3 _ hext hins hfd
    rw [hnull] at heq
    have hz2u : t2.countP isUpdate = 0 :=
      countP_eq_zero_of_all (fun a ha => by
        have := hallN a ha
        simp only [Bool.or_eq_false_iff] at this
        exact this.2)
    have hz3u : t3.countP isUpdate = 0 :=
      countP_eq_zero_of_all (fun a ha => by
        have := hallA a ha
        simp only [Bool.or_eq_false_iff] at this
        exact this.2)
    have hz2h : t2.countP (isCachePut .hostname) = 0 :=
      countP_eq_zero_of_all (fun a ha => by
        have := hallN a ha
        simp only [Bool.or_eq_false_iff] at this
        exact this.1.1.1)
    have hz3h : t3.countP (isCachePut .hostname) = 0 :=
      countP_eq_zero_of_all (fun a ha => by
        have := hallA a ha
        simp only [Bool.or_eq_false_iff] at this
        exact this.1.1.2)
    refine ⟨_, heq, ?_, getLast_insert_concat sid _ _, ?_⟩
    · simp [List.countP_cons, List.countP_append, hz2u, hz3u, isUpdate]
    · simp [List.countP_cons, List.countP_append, hz2h, hz3h, isCachePut]
  · have h2 : FillIfNameIfMissing o ev1 = (.ok ev1,
        [.cacheGet .ifname ev1.ipAddress ev1.ifIndex, .lock,
         .snmpGet (ifNameOIDPfx ++ toString ev1.ifIndex) ev1.ipAddress,
         .unlock]) := by
      unfold FillIfNameIfMissing
      rw [hNN]
      unfold FillIfName
      rw [hCM]
      rcases hSF with hs | hs <;> simp [getSNMPString, hs]
    obtain ⟨-, -, -, -, hallH⟩ := fillHostNameIfMissing_of_eq o ev ev1 t1 h1
    obtain ⟨-, -, -, hAifn, hallA⟩ :=
      fillIfAliasIfMissing_of_eq o ev1 ev3 t3 h3
    have hnull : ev3.ifName = none := by rw [hAifn, hNN]
    have hfd : FetchMissingData o ev = (.ok ev3,
        (t1 ++ [.cacheGet .ifname ev1.ipAddress ev1.ifIndex, .lock,
          .snmpGet (ifNameOIDPfx ++ toString ev1.ifIndex) ev1.ipAddress,
          .unlock]) ++ t3) := by
      rw [fetchMissingData_eq o ev ev1 ev1 t1 _ h1 h2, h3]
    have heq := linkEventHandler_eq_of_fetch o p addr sid ev ev3 _ hext hins hfd
    rw [hnull] at heq
    have hz1u : t1.countP isUpdate = 0 :=
      countP_eq_zero_of_all (fun a ha => by
        have := hallH a ha
        simp only [Bool.or_eq_false_iff] at this
        exact this.2)
    have hz3u : t3.countP isUpdate = 0 :=
      countP_eq_zero_of_all (fun a ha => by
        have := hallA a ha
        simp only [Bool.or_eq_false_iff] at this
        exact this.2)
    have hz1n : t1.countP (isCachePut .ifname) = 0 :=
      countP_eq_zero_of_all (fun a ha => by
        have := hallH a ha
        simp only [Bool.or_eq_false_iff] at this
        exact this.1.1.1.2)
    have hz3n : t3.countP (isCachePut .ifname) = 0 :=
      countP_eq_zero_of_all (fun a ha => by
        have := hallA a ha
        simp only [Bool.or_eq_false_iff] at this
        exact this.1.1.1.2)
    refine ⟨_, heq, ?_, getLast_insert_concat sid _ _, ?_⟩
    · simp [List.countP_cons, List.countP_append, hz1u, hz3u, isUpdate]
    · simp [List.countP_cons, List.countP_append, hz1n, hz3n, isCachePut]
  · have h3 : FillIfAliasIfMissing o ev2 = (.ok ev2,
        [.cacheGet .ifalias ev2.ipAddress ev2.ifIndex, .lock,
         .snmpGet (ifAliasOIDPfx ++ toString ev2.ifIndex) ev2.ipAddress,
         .unlock]) := by
      unfold FillIfAliasIfMissing
      rw [hAN]
      unfold FillIfAlias
      rw [hCM]
      rcases hSF with hs | hs <;> simp [getSNMPString, hs]
    obtain ⟨-, -, -, -, hallH⟩ := fillHostNameIfMissing_of_eq o ev ev1 t1 h1
    obtain ⟨-, -, -, -, hallN⟩ := fillIfNameIfMissing_of_eq o ev1 ev2 t2 h2
    have hfd : FetchMissingData o ev = (.ok ev2,
        (t1 ++ t2) ++ [.cacheGet .ifalias ev2.ipAddress ev2.ifIndex, .lock,
          .snmpGet (ifAliasOIDPfx ++ toString ev2.ifIndex) ev2.ipAddress,
          .unlock]) := by
      rw [fetchMissingData_eq o ev ev1 ev2 t1 t2 h1 h2, h3]
    have heq := linkEventHandler_eq_of_fetch o p addr sid ev ev2 _ hext hins hfd
    rw [hAN] at heq
    have hz1u : t1.countP isUpdate = 0 :=
      countP_eq_zero_of_all (fun a ha => by
        have := hallH a ha
        simp only [Bool.or_eq_false_iff] at this
        exact this.2)
    have hz2u : t2.countP isUpdate = 0 :=
      countP_eq_zero_of_all (fun a ha => by
        have := hallN a ha
        simp only [Bool.or_eq_false_iff] at this
        exact this.2)
    have hz1a : t1.countP (isCachePut .ifalias) = 0 :=
      countP_eq_zero_of_all (fun a ha => by
        have := hallH a ha
        simp only [Bool.or_eq_false_iff] at this
        exact this.1.1.2)
    have hz2a : t2.countP (isCachePut .ifalias) = 0 :=
      countP_eq_zero_of_all (fun a ha => by
        have := hallN a ha
        simp only [Bool.or_eq_false_iff] at this
        exact this.1.1.2)
    refine ⟨_, heq, ?_, getLast_insert_concat sid _ _, ?_⟩
    · simp [List.countP_cons, List.countP_append, hz1u, hz2u, isUpdate]
    · simp [List.countP_cons, List.countP_append, hz1a, hz2a, isCachePut]

/-- An environment in which the hostname query fails to connect while
every other device query succeeds with "v"; caches miss, the insert
succeeds. -/
def oHostFail : Oracle :=
  ⟨fun _ _ _ => none,
   fun oid _ => if oid = sysNameOID then .connError else .value "v", true⟩

/-- `evGood` after its ifName resolved to "v". -/
def evGoodN : LinkEvent :=
  { ifIndex := 3, ifAdminStatus := 1, ifOperStatus := 2,
    ifName := some "v", ipAddress := "10.0.0.3", timeTicks := 55 }

/-- `evGoodN` after its ifAlias resolved to "v". -/
def evGoodNA : LinkEvent :=
  { ifIndex := 3, ifAdminStatus := 1, ifOperStatus := 2,
    ifName := some "v", ifAlias := some "v", ipAddress := "10.0.0.3",
    timeTicks := 55 }

/-- The ifName-step trace of the `oHostFail` run. -/
def t2c : List Evt :=
  [.cacheGet .ifname "10.0.0.3" 3, .lock,
   .snmpGet (ifNameOIDPfx ++ "3") "10.0.0.3", .unlock,
   .cachePut .ifname "10.0.0.3" 3 none]

/-- The ifAlias-step trace of the `oHostFail` run. -/
def t3c : List Evt :=
  [.cacheGet .ifalias "10.0.0.3" 3, .lock,
   .snmpGet (ifAliasOIDPfx ++ "3") "10.0.0.3", .unlock,
   .cachePut .ifalias "10.0.0.3" 3 (some "v")]

/-- C7 witness: in a run where only the hostname query fails (connection
error) and ifName/ifAlias resolve, the handler still performs exactly one
update and writes no hostname cache entry. -/
theorem field_error_update_still_runs_witness :
    ((LinkEventHandler oHostFail pGood "10.0.0.3" "sid3").2).countP
      isUpdate = 1
    ∧ ((LinkEventHandler oHostFail pGood "10.0.0.3" "sid3").2).countP
      (isCachePut .hostname) = 0 := by
  obtain ⟨t, heq, hcount, -, hput⟩ :=
    (field_error_leaves_field_null_update_still_runs oHostFail pGood
      "10.0.0.3" "sid3" evGood (by decide) rfl).1 evGoodN evGoodNA t2c t3c
      rfl rfl (.inl (by decide)) (by decide) (by decide)
  rw [heq]
  exact ⟨hcount, hput⟩

end Snmpflapd
